import Mathlib

/-!
Verification of the proof-of-stake consensus kernel of MaryJaneCoin.

The repository ships the kernel interface in src/pos/kernel.h; the function
bodies (kernel.cpp) are not part of the available sources, so every operation
below is modelled from the natural-language specification of the kernel
(spec.md sections 3, 4, 6 and 7), faithful to its words, and the claims are
settled against these models.  Constants that do appear in the header
(MODIFIER_INTERVAL_RATIO = 3) are taken from the header.
-/

namespace MaryJane

/-- MODIFIER_INTERVAL_RATIO from src/pos/kernel.h line 21: the number of
selection sub-buckets used when a new stake modifier is generated. -/
def MODIFIER_INTERVAL_RATIO : Nat := 3

/-- Modelled from the spec (section 3, Chain Position): an immutable reference
to an accepted block, exposing its timestamp, its identifying 256-bit block
hash, a 256-bit proof-of-work-derived hash used for entropy, and the 64-bit
stake modifier value attached to this position.  The backward predecessor link
is represented by placing ancestors after the position in a list. -/
structure BlockIndexData where
  nTime : Nat
  blockHash : Nat
  hashProof : Nat
  stakeModifier : Nat
  deriving Repr, DecidableEq

/-- Modelled from the spec (sections 3 and 9, Protocol Switch Table /
NetworkParameters): the per-network activation timestamps of the
timestamp-gated protocol features declared in src/pos/kernel.h lines 23-41.
The concrete values are network parameters outside the available sources. -/
structure NetworkParams where
  nProtocolV03SwitchTime : Nat
  nProtocolV04SwitchTime : Nat
  nProtocolV05SwitchTime : Nat
  nProtocolV07SwitchTime : Nat
  nBTC16BIPsSwitchTime : Nat
  nProtocolV09SwitchTime : Nat
  deriving Repr, DecidableEq

/-- Modelled from the spec (section 4.1): a feature is active for a given
timestamp iff that timestamp is at least its activation timestamp.
Declaration: src/pos/kernel.h line 28 (implementation not in sources). -/
def IsProtocolV03 (params : NetworkParams) (nTimeCoinStake : Nat) : Bool :=
  decide (params.nProtocolV03SwitchTime ≤ nTimeCoinStake)

/-- Modelled from the spec (section 4.1), as for v0.3.
Declaration: src/pos/kernel.h line 30. -/
def IsProtocolV04 (params : NetworkParams) (nTimeBlock : Nat) : Bool :=
  decide (params.nProtocolV04SwitchTime ≤ nTimeBlock)

/-- Modelled from the spec (section 4.1), as for v0.3.
Declaration: src/pos/kernel.h line 32. -/
def IsProtocolV05 (params : NetworkParams) (nTimeTx : Nat) : Bool :=
  decide (params.nProtocolV05SwitchTime ≤ nTimeTx)

/-- Modelled from the spec (section 4.1): the one feature gated on the
existence of the predecessor position rather than on a timestamp, modeling a
once-only hard-fork switch.  Declaration: src/pos/kernel.h line 35. -/
def IsProtocolV06 (pindexPrev : Option BlockIndexData) : Bool :=
  pindexPrev.isSome

/-- Modelled from the spec (section 4.1), as for v0.3.
Declaration: src/pos/kernel.h line 37. -/
def IsProtocolV07 (params : NetworkParams) (nTimeTx : Nat) : Bool :=
  decide (params.nProtocolV07SwitchTime ≤ nTimeTx)

/-- Modelled from the spec (section 4.1), as for v0.3.
Declaration: src/pos/kernel.h line 39. -/
def IsBTC16BIPsEnabled (params : NetworkParams) (nTimeTx : Nat) : Bool :=
  decide (params.nBTC16BIPsSwitchTime ≤ nTimeTx)

/-- Modelled from the spec (section 4.1), as for v0.3.
Declaration: src/pos/kernel.h line 41. -/
def IsProtocolV09 (params : NetworkParams) (nTimeTx : Nat) : Bool :=
  decide (params.nProtocolV09SwitchTime ≤ nTimeTx)

/-- Modelled from the spec (section 4.2, Entropy Extractor): one bit of
entropy deterministically derived from a fixed bit position of the identifying
block hash; the fixed position is taken to be the least significant bit.
Declaration: src/pos/kernel.h line 66. -/
def GetStakeEntropyBit (blockHash : Nat) : Nat :=
  blockHash % 2

/-- Modelled from the spec (section 4.5, Checkpoint Guard): the hard-coded
checkpoint table is a mapping from specific heights to expected checksum
values; the concrete table lives in the missing kernel.cpp, so the table is a
parameter here.  Given a height and a claimed checksum, succeed
unconditionally if no checkpoint is defined at that height; otherwise succeed
iff the claimed checksum exactly equals the hard-coded value.
Declaration: src/pos/kernel.h line 61. -/
def CheckStakeModifierCheckpoints (table : List (Nat × Nat)) (nHeight : Nat)
    (nStakeModifierChecksum : Nat) : Bool :=
  match table.find? (fun p => p.fst == nHeight) with
  | none => true
  | some p => p.snd == nStakeModifierChecksum

/-- Modelled from the spec (section 4.3, Coin-Age Calculator): the resolved
view of the output referenced by one transaction input, as supplied by the
output-resolution collaborator: whether the source transaction is a coinbase
or a coinstake, the output value, and the timestamp of the containing block. -/
structure ResolvedPrev where
  fromCoinBase : Bool
  fromCoinStake : Bool
  value : Nat
  blockTime : Nat
  deriving Repr, DecidableEq

/-- Modelled from the spec (section 4.3): accumulate the raw value-time
product over the inputs of a transaction.  Each input is the (optional)
resolution of its referenced output; a referenced output that cannot be
resolved (none) is fatal for the calculation.  Inputs whose source is a
coinbase or a coinstake are not eligible and contribute nothing; an eligible
input contributes value times elapsed time, clamped to not count outputs
younger than the configured minimum maturity. -/
def coinAgeAccum (nStakeMinAge nTimeTx : Nat) :
    List (Option ResolvedPrev) → Option Nat
  | [] => some 0
  | none :: _ => none
  | some p :: rest =>
    match coinAgeAccum nStakeMinAge nTimeTx rest with
    | none => none
    | some acc =>
      if p.fromCoinBase || p.fromCoinStake then some acc
      else if nTimeTx < p.blockTime + nStakeMinAge then some acc
      else some (acc + p.value * (nTimeTx - p.blockTime))

/-- Modelled from the spec (section 4.3, Coin-Age Calculator): sum over the
eligible inputs the product of output value and clamped elapsed time, and
convert the accumulated value-time product into coin-days.  A referenced
output that cannot be resolved makes the whole calculation fatal (none), so
the caller rejects the enclosing transaction instead of seeing a zero age.
Declaration: src/pos/kernel.h line 68 (implementation not in sources). -/
def GetCoinAge (nStakeMinAge nTimeTx : Nat)
    (inputs : List (Option ResolvedPrev)) : Option Nat :=
  (coinAgeAccum nStakeMinAge nTimeTx inputs).map
    (fun total => total / (100000000 * 86400))

/-- Modelled from the spec: the cryptographic mixing hash used by the kernel
hash evaluator (section 4.6) and by modifier candidate selection (section
4.4 step 3).  The spec does not fix the concrete hash function, only that it
is a deterministic function of its inputs producing a 256-bit value; it is
modelled as a deterministic arithmetic mixing of the two inputs reduced
modulo 2 ^ 256. -/
def mixHash (a b : Nat) : Nat :=
  (a * 2654435761 + b * 40503 + 2463534242) % 2 ^ 256

/-- Modelled from the spec (section 4.6): the kernel hash, a deterministic
hash of the stake modifier, the containing block timestamp of the referenced
previous output, the byte offset of the source transaction, the referenced
output reference (source transaction hash and output index), and the
candidate timestamp. -/
def kernelHash (nStakeModifier blockFromTime nTxPrevOffset prevoutHash
    prevoutN nTimeTx : Nat) : Nat :=
  mixHash nStakeModifier (mixHash blockFromTime (mixHash nTxPrevOffset
    (mixHash prevoutHash (mixHash prevoutN nTimeTx))))

/-- Modelled from the spec (section 4.6): decode the compact difficulty value
(the nBits field, mantissa in the low 24 bits, base-256 exponent in the high
byte) into the unweighted target. -/
def setCompact (nBits : Nat) : Nat :=
  let exponent := nBits / 2 ^ 24
  let mantissa := nBits % 2 ^ 24
  if exponent ≤ 3 then mantissa / 256 ^ (3 - exponent)
  else mantissa * 256 ^ (exponent - 3)

/-- Modelled from the spec (section 4.6): the effective target is derived from
the compact difficulty value scaled by the value of the referenced output
(stake weight), so larger stakes have proportionally easier targets. -/
def weightedTarget (nBits prevoutValue : Nat) : Nat :=
  setCompact nBits * prevoutValue

/-- Modelled from the spec (section 4.6, Kernel Hash Evaluator): compute the
kernel hash and compare it against the weighted target; return success and
the computed proof hash when the hash is numerically at most the target, and
failure otherwise.  The mutable out-parameter hashProofOfStake of the C++
interface (src/pos/kernel.h lines 46-48: sets hashProofOfStake on success
return) is modelled by state passing: the last argument is its value before
the call and the second component of the result its value after.
Declaration: src/pos/kernel.h line 48 (implementation not in sources). -/
def CheckStakeKernelHash (nBits blockFromTime nTxPrevOffset prevoutValue
    prevoutHash prevoutN nStakeModifier nTimeTx hashProofOfStake : Nat) :
    Bool × Nat :=
  let target := weightedTarget nBits prevoutValue
  let h := kernelHash nStakeModifier blockFromTime nTxPrevOffset prevoutHash
    prevoutN nTimeTx
  if h ≤ target then (true, h) else (false, hashProofOfStake)

/-- Modelled from the spec (section 4.4 step 3): the derived selection score
of one candidate, a mixing hash of the proof hash of the candidate and the
running selection hash. -/
def selectionScore (hashSelection candHashProof : Nat) : Nat :=
  mixHash candHashProof hashSelection

/-- Modelled from the spec (section 4.4 step 2): whether a timestamp t falls
in sub-bucket r (r counted chronologically from 0) of the selection interval
preceding the generation time, where the whole interval covers
MODIFIER_INTERVAL_RATIO times the modifier interval preceding the generation
time, partitioned into MODIFIER_INTERVAL_RATIO equal-length sub-buckets. -/
def inSubBucket (nModifierInterval nGenTime r t : Nat) : Bool :=
  decide (nGenTime ≤ t + ( MODIFIER_INTERVAL_RATIO - r) * nModifierInterval)
    && decide (t + ( MODIFIER_INTERVAL_RATIO - r - 1) * nModifierInterval
      < nGenTime)

/-- Modelled from the spec (section 4.4 steps 2-3): the candidates of
sub-bucket r, in chronological order.  The chain list holds the predecessor
position first and its ancestors after it (traversal toward genesis), so the
reversed filtered list is the chronological iteration order. -/
def roundCandidates (nModifierInterval nGenTime : Nat)
    (chain : List BlockIndexData) (r : Nat) : List BlockIndexData :=
  (chain.filter (fun c => inSubBucket nModifierInterval nGenTime r c.nTime)).reverse

/-- Modelled from the spec (section 4.4 step 3): iterate the candidates in
chronological order and keep the candidate with the numerically highest
derived score for the given running selection hash; the earlier candidate is
kept on a tie.  An empty sub-bucket has no winner. -/
def selectCandidate (seed : Nat) (cands : List BlockIndexData) :
    Option BlockIndexData :=
  cands.foldl
    (fun best c =>
      match best with
      | none => some c
      | some b =>
        if selectionScore seed b.hashProof < selectionScore seed c.hashProof
        then some c else some b)
    none

/-- Modelled from the spec (section 4.4 steps 3-5): run the selection rounds
chronologically (round 0 first).  The running selection hash is seeded with
zero for the first round and reseeded from the chosen candidate of each round
(its derived score); the entropy bit of the winner of each round is placed so
that the most recent round lands in the lowest bit position.  A round with no
candidates contributes a zero entropy bit and leaves the seed unchanged. -/
def modifierRounds (nModifierInterval nGenTime : Nat)
    (chain : List BlockIndexData) : Nat × Nat :=
  (List.range MODIFIER_INTERVAL_RATIO).foldl
    (fun acc r =>
      match selectCandidate acc.2
        (roundCandidates nModifierInterval nGenTime chain r) with
      | some w =>
        (acc.1 + GetStakeEntropyBit w.blockHash
          * 2 ^ ( MODIFIER_INTERVAL_RATIO - 1 - r),
         selectionScore acc.2 w.hashProof)
      | none => acc)
    (0, 0)

/-- Modelled from the spec (section 4.4, Stake Modifier Generator; the
implementation kernel.cpp is not in the sources).  Compute the stake modifier
for the position that follows the given predecessor position, whose own
generation time is passed explicitly.  The predecessor argument is the
predecessor position together with its ancestor list (traversal toward
genesis); a predecessor chain position that cannot be traversed to exist at
all is the none case and is the only failure.  If the predecessor timestamp
divided by the modifier interval falls in the same interval bucket as the
generation time, no new modifier is generated: the most recent ancestor
modifier is inherited unchanged with the generated flag false.  Otherwise the
new modifier is assembled from the selection rounds with the generated flag
true.  Declaration: src/pos/kernel.h line 44. -/
def ComputeNextStakeModifier (nModifierInterval : Nat)
    (pindexPrev : Option (BlockIndexData × List BlockIndexData))
    (nGenTime : Nat) : Option (Nat × Bool) :=
  match pindexPrev with
  | none => none
  | some (prev, ancestors) =>
    if prev.nTime / nModifierInterval = nGenTime / nModifierInterval then
      some (prev.stakeModifier, false)
    else
      some ((modifierRounds nModifierInterval nGenTime
        (prev :: ancestors)).1, true)

/-- Modelled from the spec (sections 4.7 and 6): the resolved kernel input of
a coinstake transaction: the containing block timestamp of the referenced
output, its byte offset, and the referenced output (value and reference). -/
structure KernelInput where
  blockFromTime : Nat
  nTxPrevOffset : Nat
  prevoutValue : Nat
  prevoutHash : Nat
  prevoutN : Nat
  deriving Repr, DecidableEq

/-- Modelled from the spec (section 4.7): the view of a candidate coinstake
transaction: whether it has the coinstake shape, the (optional) resolution of
its kernel input, the claimed transaction time, and the block time. -/
structure CoinStakeView where
  isCoinStake : Bool
  resolved : Option KernelInput
  nTimeTx : Nat
  nTimeBlock : Nat
  deriving Repr, DecidableEq

/-- Modelled from the spec (section 4.7, Proof-of-Stake Validator;
implementation not in sources).  Three sequential gates, any failure
short-circuits: the structural gate (coinstake shape and resolvable kernel
input), the timestamp gate (minimum maturity before the referenced output
block time, and exact match with the block time when the version gate
requires it), then the kernel gate (CheckStakeKernelHash).  The
hashProofOfStake out-parameter (src/pos/kernel.h lines 50-52: sets
hashProofOfStake on success return) is modelled by state passing as in
CheckStakeKernelHash.  Declaration: src/pos/kernel.h line 52. -/
def CheckProofOfStake (nStakeMinAge : Nat) (exactTimeRequired : Bool)
    (tx : CoinStakeView) (nBits nStakeModifier hashProofOfStake : Nat) :
    Bool × Nat :=
  if !tx.isCoinStake then (false, hashProofOfStake)
  else
    match tx.resolved with
    | none => (false, hashProofOfStake)
    | some ki =>
      if tx.nTimeTx < ki.blockFromTime + nStakeMinAge then
        (false, hashProofOfStake)
      else if exactTimeRequired && tx.nTimeTx ≠ tx.nTimeBlock then
        (false, hashProofOfStake)
      else
        CheckStakeKernelHash nBits ki.blockFromTime ki.nTxPrevOffset
          ki.prevoutValue ki.prevoutHash ki.prevoutN nStakeModifier
          tx.nTimeTx hashProofOfStake

/-- Modelled from the spec (section 4.4 step 4): the entropy bit contributed
by the (optional) winning candidate of one selection round; a round with no
winner contributes a zero entropy bit. -/
def entBitOfWinner : Option BlockIndexData → Nat
  | some w => GetStakeEntropyBit w.blockHash
  | none => 0

/-- Modelled from the spec (section 4.4 step 3): the running selection hash
after one round: reseeded from the chosen candidate when the round has a
winner, unchanged when the round is empty. -/
def stepSeed (seed : Nat) : Option BlockIndexData → Nat
  | some w => selectionScore seed w.hashProof
  | none => seed

/-- The body of one selection round of modifierRounds, named for reasoning:
given the accumulator (modifier bits so far, running selection hash) and the
round number, select the winner and fold in its entropy bit and the new
seed. -/
def roundBody (nModifierInterval nGenTime : Nat) (chain : List BlockIndexData)
    (acc : Nat × Nat) (r : Nat) : Nat × Nat :=
  match selectCandidate acc.2 (roundCandidates nModifierInterval nGenTime chain r) with
  | some w =>
    (acc.1 + GetStakeEntropyBit w.blockHash
      * 2 ^ ( MODIFIER_INTERVAL_RATIO - 1 - r),
     selectionScore acc.2 w.hashProof)
  | none => acc

/-- The winning candidate of the first (earliest) selection round, drawn with
the zero-seeded selection hash. -/
def selWinner0 (nModifierInterval nGenTime : Nat)
    (chain : List BlockIndexData) : Option BlockIndexData :=
  selectCandidate 0 (roundCandidates nModifierInterval nGenTime chain 0)

/-- The running selection hash after the first round. -/
def selSeed1 (nModifierInterval nGenTime : Nat)
    (chain : List BlockIndexData) : Nat :=
  stepSeed 0 (selWinner0 nModifierInterval nGenTime chain)

/-- The winning candidate of the second selection round. -/
def selWinner1 (nModifierInterval nGenTime : Nat)
    (chain : List BlockIndexData) : Option BlockIndexData :=
  selectCandidate (selSeed1 nModifierInterval nGenTime chain)
    (roundCandidates nModifierInterval nGenTime chain 1)

/-- The running selection hash after the second round. -/
def selSeed2 (nModifierInterval nGenTime : Nat)
    (chain : List BlockIndexData) : Nat :=
  stepSeed (selSeed1 nModifierInterval nGenTime chain)
    (selWinner1 nModifierInterval nGenTime chain)

/-- The winning candidate of the third (most recent) selection round. -/
def selWinner2 (nModifierInterval nGenTime : Nat)
    (chain : List BlockIndexData) : Option BlockIndexData :=
  selectCandidate (selSeed2 nModifierInterval nGenTime chain)
    (roundCandidates nModifierInterval nGenTime chain 2)

section Theorems

/-- Unfolding equation for the kernel hash evaluator: compare the kernel hash
against the weighted target, return the proof hash on success and the prior
out-parameter value on failure. -/
theorem CheckStakeKernelHash_eq (nBits bft off v q n m t z : Nat) :
    CheckStakeKernelHash nBits bft off v q n m t z =
      if kernelHash m bft off q n t ≤ weightedTarget nBits v then
        (true, kernelHash m bft off q n t)
      else (false, z) := rfl

/-- Unfolding equation for the modifier generator on a traversable
predecessor. -/
theorem ComputeNextStakeModifier_some_eq (nModifierInterval nGenTime : Nat)
    (prev : BlockIndexData) (anc : List BlockIndexData) :
    ComputeNextStakeModifier nModifierInterval (some (prev, anc)) nGenTime =
      if prev.nTime / nModifierInterval = nGenTime / nModifierInterval then
        some (prev.stakeModifier, false)
      else
        some ((modifierRounds nModifierInterval nGenTime (prev :: anc)).1,
          true) := rfl

/-- The fold body of modifierRounds is the named roundBody. -/
theorem modifierRounds_eq_fold (nModifierInterval nGenTime : Nat)
    (chain : List BlockIndexData) :
    modifierRounds nModifierInterval nGenTime chain =
      (List.range MODIFIER_INTERVAL_RATIO).foldl
        (roundBody nModifierInterval nGenTime chain) (0, 0) := by
  rfl

/-- One round adds the entropy bit of the selected winner at the bit position
of the round and steps the seed by the winner. -/
theorem roundBody_spec (nModifierInterval nGenTime : Nat)
    (chain : List BlockIndexData) (acc : Nat × Nat) (r : Nat) :
    roundBody nModifierInterval nGenTime chain acc r =
      (acc.1 + entBitOfWinner
          (selectCandidate acc.2 (roundCandidates nModifierInterval nGenTime chain r))
          * 2 ^ ( MODIFIER_INTERVAL_RATIO - 1 - r),
       stepSeed acc.2
          (selectCandidate acc.2 (roundCandidates nModifierInterval nGenTime chain r))) := by
  unfold roundBody
  cases h : selectCandidate acc.2 (roundCandidates nModifierInterval nGenTime chain r) with
  | none => simp [entBitOfWinner, stepSeed]
  | some w => simp [entBitOfWinner, stepSeed]

/-- C6: for every protocol-version predicate and every pair of timestamps T
and T2 with T2 > T on the same network, if the predicate is true at T then it
is true at T2; the one predicate gated on the predecessor position
(IsProtocolV06) is true whenever the predecessor exists, hence stays true. -/
theorem protocol_gates_monotone (params : NetworkParams) (T T2 : Nat)
    (p : BlockIndexData) (hT : T < T2) :
    (IsProtocolV03 params T = true → IsProtocolV03 params T2 = true) ∧
    (IsProtocolV04 params T = true → IsProtocolV04 params T2 = true) ∧
    (IsProtocolV05 params T = true → IsProtocolV05 params T2 = true) ∧
    (IsProtocolV07 params T = true → IsProtocolV07 params T2 = true) ∧
    (IsBTC16BIPsEnabled params T = true → IsBTC16BIPsEnabled params T2 = true) ∧
    (IsProtocolV09 params T = true → IsProtocolV09 params T2 = true) ∧
    IsProtocolV06 (some p) = true := by
  refine ⟨?_, ?_, ?_, ?_, ?_, ?_, ?_⟩ <;>
    simp [IsProtocolV03, IsProtocolV04, IsProtocolV05, IsProtocolV07,
      IsProtocolV09, IsBTC16BIPsEnabled, IsProtocolV06] <;>
    omega

/-- Witness for C6 at a concrete network and timestamps. -/
theorem protocol_gates_monotone_witness :
    10 < 11 ∧
    ((IsProtocolV03 ⟨5, 6, 7, 8, 9, 10⟩ 10 = true →
      IsProtocolV03 ⟨5, 6, 7, 8, 9, 10⟩ 11 = true) ∧
     (IsProtocolV04 ⟨5, 6, 7, 8, 9, 10⟩ 10 = true →
      IsProtocolV04 ⟨5, 6, 7, 8, 9, 10⟩ 11 = true) ∧
     (IsProtocolV05 ⟨5, 6, 7, 8, 9, 10⟩ 10 = true →
      IsProtocolV05 ⟨5, 6, 7, 8, 9, 10⟩ 11 = true) ∧
     (IsProtocolV07 ⟨5, 6, 7, 8, 9, 10⟩ 10 = true →
      IsProtocolV07 ⟨5, 6, 7, 8, 9, 10⟩ 11 = true) ∧
     (IsBTC16BIPsEnabled ⟨5, 6, 7, 8, 9, 10⟩ 10 = true →
      IsBTC16BIPsEnabled ⟨5, 6, 7, 8, 9, 10⟩ 11 = true) ∧
     (IsProtocolV09 ⟨5, 6, 7, 8, 9, 10⟩ 10 = true →
      IsProtocolV09 ⟨5, 6, 7, 8, 9, 10⟩ 11 = true) ∧
     IsProtocolV06 (some ⟨1, 2, 3, 4⟩) = true) :=
  ⟨by decide, protocol_gates_monotone ⟨5, 6, 7, 8, 9, 10⟩ 10 11 ⟨1, 2, 3, 4⟩ (by decide)⟩

/-- C7: the checkpoint guard succeeds unconditionally when no checkpoint is
defined at the height, and when one is defined it succeeds exactly when the
claimed checksum equals the hard-coded value. -/
theorem checkpoint_guard_spec (table : List (Nat × Nat)) (nHeight c : Nat)
    (v : Nat × Nat) :
    (table.find? (fun p => p.fst == nHeight) = none →
      CheckStakeModifierCheckpoints table nHeight c = true) ∧
    (table.find? (fun p => p.fst == nHeight) = some v →
      (CheckStakeModifierCheckpoints table nHeight c = true ↔ v.snd = c)) := by
  constructor
  · intro h
    simp [CheckStakeModifierCheckpoints, h]
  · intro h
    simp [CheckStakeModifierCheckpoints, h]

/-- Witness for C7: an absent checkpoint accepts any checksum; a present
checkpoint accepts exactly the hard-coded value. -/
theorem checkpoint_guard_spec_witness :
    CheckStakeModifierCheckpoints [(5, 7)] 3 9 = true ∧
    (CheckStakeModifierCheckpoints [(5, 7)] 5 9 = true ↔ (7 : Nat) = 9) :=
  ⟨(checkpoint_guard_spec [(5, 7)] 3 9 (5, 7)).1 (by decide),
   (checkpoint_guard_spec [(5, 7)] 5 9 (5, 7)).2 (by decide)⟩

/-- C2: when the predecessor timestamp divided by the modifier interval falls
in the same interval bucket as the generation time, no new modifier is
generated: the most recent ancestor modifier is returned unchanged and the
generated flag is false. -/
theorem compute_modifier_inherit (nModifierInterval nGenTime : Nat)
    (prev : BlockIndexData) (anc : List BlockIndexData)
    (h : prev.nTime / nModifierInterval = nGenTime / nModifierInterval) :
    ComputeNextStakeModifier nModifierInterval (some (prev, anc)) nGenTime =
      some (prev.stakeModifier, false) := by
  simp [ComputeNextStakeModifier, h]

/-- Witness for C2 at a concrete predecessor and generation time in the same
interval bucket. -/
theorem compute_modifier_inherit_witness :
    (25 : Nat) / 10 = 27 / 10 ∧
    ComputeNextStakeModifier 10 (some (⟨25, 0, 0, 42⟩, [])) 27 =
      some (42, false) :=
  ⟨by decide, compute_modifier_inherit 10 27 ⟨25, 0, 0, 42⟩ [] (by decide)⟩

/-- C5: for equal chain history and equal argument values the modifier
generator and the kernel hash evaluator return equal outputs: both are pure
functions of their explicit arguments. -/
theorem kernel_functions_deterministic (i1 i2 : Nat)
    (p1 p2 : Option (BlockIndexData × List BlockIndexData)) (g1 g2 : Nat)
    (b1 b2 f1 f2 o1 o2 v1 v2 q1 q2 n1 n2 m1 m2 t1 t2 z1 z2 : Nat)
    (hi : i1 = i2) (hp : p1 = p2) (hg : g1 = g2) (hb : b1 = b2)
    (hf : f1 = f2) (ho : o1 = o2) (hv : v1 = v2) (hq : q1 = q2)
    (hn : n1 = n2) (hm : m1 = m2) (ht : t1 = t2) (hz : z1 = z2) :
    ComputeNextStakeModifier i1 p1 g1 = ComputeNextStakeModifier i2 p2 g2 ∧
    CheckStakeKernelHash b1 f1 o1 v1 q1 n1 m1 t1 z1 =
      CheckStakeKernelHash b2 f2 o2 v2 q2 n2 m2 t2 z2 := by
  subst_vars
  exact ⟨rfl, rfl⟩

/-- Witness for C5 at concrete equal inputs. -/
theorem kernel_functions_deterministic_witness :
    ComputeNextStakeModifier 10 (some (⟨25, 0, 0, 42⟩, [])) 27 =
      ComputeNextStakeModifier 10 (some (⟨25, 0, 0, 42⟩, [])) 27 ∧
    CheckStakeKernelHash 1 2 3 4 5 6 7 8 9 =
      CheckStakeKernelHash 1 2 3 4 5 6 7 8 9 :=
  kernel_functions_deterministic 10 10 (some (⟨25, 0, 0, 42⟩, []))
    (some (⟨25, 0, 0, 42⟩, [])) 27 27 1 1 2 2 3 3 4 4 5 5 6 6 7 7 8 8 9 9
    rfl rfl rfl rfl rfl rfl rfl rfl rfl rfl rfl rfl

/-- C9: doubling the value of the referenced output exactly doubles the
effective target computed by the kernel hash evaluator, holding the compact
difficulty value and all other inputs fixed; so the success verdict at the
doubled value compares the same kernel hash against the doubled target. -/
theorem weighted_target_scales (nBits v bft off q n m t z : Nat) :
    weightedTarget nBits (2 * v) = 2 * weightedTarget nBits v ∧
    ((CheckStakeKernelHash nBits bft off (2 * v) q n m t z).1 = true ↔
      kernelHash m bft off q n t ≤ 2 * weightedTarget nBits v) := by
  have hdouble : weightedTarget nBits (2 * v) = 2 * weightedTarget nBits v := by
    unfold weightedTarget
    ring
  refine ⟨hdouble, ?_⟩
  rw [CheckStakeKernelHash_eq, hdouble]
  split
  case isTrue h => simpa using h
  case isFalse h => simpa using h

/-- Witness for C9 at a concrete difficulty and value. -/
theorem weighted_target_scales_witness :
    weightedTarget 486604799 (2 * 3) = 2 * weightedTarget 486604799 3 ∧
    ((CheckStakeKernelHash 486604799 0 0 (2 * 3) 0 0 0 0 0).1 = true ↔
      kernelHash 0 0 0 0 0 0 ≤ 2 * weightedTarget 486604799 3) :=
  weighted_target_scales 486604799 3 0 0 0 0 0 0 0

/-- C1: the kernel hash evaluator returns success exactly when the computed
kernel hash is numerically at most the target derived from the compact
difficulty value scaled by the value of the referenced output, and on success
the returned proof hash is the computed kernel hash; otherwise it returns
failure. -/
theorem kernel_hash_verdict (nBits bft off v q n m t z : Nat) :
    ((CheckStakeKernelHash nBits bft off v q n m t z).1 = true ↔
      kernelHash m bft off q n t ≤ weightedTarget nBits v) ∧
    ((CheckStakeKernelHash nBits bft off v q n m t z).1 = true →
      (CheckStakeKernelHash nBits bft off v q n m t z).2 =
        kernelHash m bft off q n t) := by
  rw [CheckStakeKernelHash_eq]
  split
  case isTrue h => exact ⟨by simpa using h, fun _ => rfl⟩
  case isFalse h =>
    refine ⟨by simpa using h, ?_⟩
    intro hfalse
    simp at hfalse

/-- Witness for C1 at a concrete satisfying input: the verdict is success and
the proof hash is the computed kernel hash. -/
theorem kernel_hash_verdict_witness :
    (CheckStakeKernelHash 486604799 0 0 1 0 0 0 0 0).1 = true ∧
    (CheckStakeKernelHash 486604799 0 0 1 0 0 0 0 0).2 =
      kernelHash 0 0 0 0 0 0 :=
  ⟨(kernel_hash_verdict 486604799 0 0 1 0 0 0 0 0).1.mpr (by decide),
   (kernel_hash_verdict 486604799 0 0 1 0 0 0 0 0).2
     ((kernel_hash_verdict 486604799 0 0 1 0 0 0 0 0).1.mpr (by decide))⟩

/-- C10: on every failure return of the kernel hash evaluator and of the
proof-of-stake validator, the hashProofOfStake out-parameter keeps its value
from before the call; it is written only on the success path. -/
theorem failure_preserves_proof_hash (nBits bft off v q n m t z : Nat)
    (minAge : Nat) (ex : Bool) (tx : CoinStakeView) (nBits2 m2 : Nat) :
    ((CheckStakeKernelHash nBits bft off v q n m t z).1 = false →
      (CheckStakeKernelHash nBits bft off v q n m t z).2 = z) ∧
    ((CheckProofOfStake minAge ex tx nBits2 m2 z).1 = false →
      (CheckProofOfStake minAge ex tx nBits2 m2 z).2 = z) := by
  constructor
  · rw [CheckStakeKernelHash_eq]
    split
    · intro hf
      simp at hf
    · intro _
      rfl
  · unfold CheckProofOfStake
    split
    · exact fun _ => rfl
    · split
      · exact fun _ => rfl
      · split
        · exact fun _ => rfl
        · split
          · exact fun _ => rfl
          · rw [CheckStakeKernelHash_eq]
            split
            · intro hf
              simp at hf
            · exact fun _ => rfl

/-- Witness for C10 at concrete failing inputs: both functions return the
prior out-parameter value. -/
theorem failure_preserves_proof_hash_witness :
    (CheckStakeKernelHash 0 0 0 0 0 0 0 1 77).2 = 77 ∧
    (CheckProofOfStake 0 false ⟨false, none, 0, 0⟩ 0 0 77).2 = 77 :=
  ⟨(failure_preserves_proof_hash 0 0 0 0 0 0 0 1 77 0 false
      ⟨false, none, 0, 0⟩ 0 0).1 (by decide),
   (failure_preserves_proof_hash 0 0 0 0 0 0 0 1 77 0 false
      ⟨false, none, 0, 0⟩ 0 0).2 (by decide)⟩

/-- The raw value-time accumulator yields zero when every input resolves to a
coinbase or coinstake source. -/
theorem coinAgeAccum_ineligible (minAge t : Nat) :
    ∀ inputs : List (Option ResolvedPrev),
      (∀ i ∈ inputs, ∃ p, i = some p ∧
        (p.fromCoinBase = true ∨ p.fromCoinStake = true)) →
      coinAgeAccum minAge t inputs = some 0
  | [], _ => rfl
  | i :: rest, h => by
    obtain ⟨p, hip, hcb⟩ := h i (List.mem_cons_self i rest)
    subst hip
    have hrest := coinAgeAccum_ineligible minAge t rest
      (fun j hj => h j (List.mem_cons_of_mem _ hj))
    rcases hcb with h1 | h1 <;> simp [coinAgeAccum, hrest, h1]

/-- The raw value-time accumulator is fatal (none) when any input fails to
resolve. -/
theorem coinAgeAccum_unresolved (minAge t : Nat) :
    ∀ inputs : List (Option ResolvedPrev), none ∈ inputs →
      coinAgeAccum minAge t inputs = none
  | [], h => absurd h (List.not_mem_nil none)
  | i :: rest, h => by
    rcases List.mem_cons.mp h with h1 | h1
    · rw [← h1]
      rfl
    · have hrest := coinAgeAccum_unresolved minAge t rest h1
      cases i with
      | none => rfl
      | some p => simp [coinAgeAccum, hrest]

/-- C8: the coin-age calculation returns zero for a transaction with no
eligible (non-coinbase/non-coinstake) inputs, and is fatal (none, so the
caller rejects the enclosing transaction rather than seeing a silently zero
age) for a transaction containing an input whose referenced output cannot be
resolved. -/
theorem coin_age_zero_and_fatal (minAge t : Nat)
    (inputs : List (Option ResolvedPrev)) :
    ((∀ i ∈ inputs, ∃ p, i = some p ∧
        (p.fromCoinBase = true ∨ p.fromCoinStake = true)) →
      GetCoinAge minAge t inputs = some 0) ∧
    (none ∈ inputs → GetCoinAge minAge t inputs = none) := by
  constructor
  · intro h
    rw [GetCoinAge, coinAgeAccum_ineligible minAge t inputs h]
    simp
  · intro h
    rw [GetCoinAge, coinAgeAccum_unresolved minAge t inputs h]
    rfl

/-- Witness for C8: a transaction whose only input resolves to a coinbase
source has age zero; a transaction with an unresolvable input is fatal. -/
theorem coin_age_zero_and_fatal_witness :
    GetCoinAge 3 100 [some ⟨true, false, 5, 0⟩] = some 0 ∧
    GetCoinAge 3 100 [some ⟨true, false, 5, 0⟩, none] = none :=
  ⟨(coin_age_zero_and_fatal 3 100 [some ⟨true, false, 5, 0⟩]).1
     (by
       intro i hi
       simp only [List.mem_singleton] at hi
       exact ⟨⟨true, false, 5, 0⟩, hi, Or.inl rfl⟩),
   (coin_age_zero_and_fatal 3 100 [some ⟨true, false, 5, 0⟩, none]).2
     (by simp)⟩

/-- C4: the modifier generator terminates with a defined modifier for every
traversable predecessor chain; missing sub-bucket rounds contribute zero
candidates and zero entropy bits (an entirely empty selection window still
yields the defined modifier zero, not an error); it fails only when the
predecessor chain position cannot be traversed to exist at all. -/
theorem compute_modifier_total (nModifierInterval nGenTime : Nat)
    (prev : BlockIndexData) (anc : List BlockIndexData) :
    (∃ m g, ComputeNextStakeModifier nModifierInterval (some (prev, anc))
      nGenTime = some (m, g)) ∧
    ComputeNextStakeModifier nModifierInterval none nGenTime = none ∧
    (prev.nTime / nModifierInterval ≠ nGenTime / nModifierInterval →
      (∀ c ∈ prev :: anc, ∀ r < MODIFIER_INTERVAL_RATIO,
        inSubBucket nModifierInterval nGenTime r c.nTime = false) →
      ComputeNextStakeModifier nModifierInterval (some (prev, anc)) nGenTime =
        some (0, true)) := by
  refine ⟨?_, rfl, ?_⟩
  · rw [ComputeNextStakeModifier_some_eq]
    split
    · exact ⟨prev.stakeModifier, false, rfl⟩
    · exact ⟨_, true, rfl⟩
  · intro h1 h2
    have hcand : ∀ r < MODIFIER_INTERVAL_RATIO,
        roundCandidates nModifierInterval nGenTime (prev :: anc) r = [] := by
      intro r hr
      unfold roundCandidates
      rw [List.reverse_eq_nil_iff, List.filter_eq_nil_iff]
      intro c hc
      simp [h2 c hc r hr]
    have hzero : modifierRounds nModifierInterval nGenTime (prev :: anc)
        = (0, 0) := by
      have h3 : List.range MODIFIER_INTERVAL_RATIO = [0, 1, 2] := rfl
      rw [modifierRounds_eq_fold, h3]
      simp only [List.foldl_cons, List.foldl_nil, roundBody_spec,
        hcand 0 (by norm_num [ MODIFIER_INTERVAL_RATIO]),
        hcand 1 (by norm_num [ MODIFIER_INTERVAL_RATIO]),
        hcand 2 (by norm_num [ MODIFIER_INTERVAL_RATIO])]
      simp [selectCandidate, entBitOfWinner, stepSeed]
    rw [ComputeNextStakeModifier_some_eq, if_neg h1, hzero]

/-- Witness for C4: a concrete chain far before the generation window still
produces the defined modifier zero with the generated flag true, and a
missing predecessor is the only failure. -/
theorem compute_modifier_total_witness :
    (∃ m g, ComputeNextStakeModifier 10 (some (⟨5, 1, 2, 9⟩, [])) 100 =
      some (m, g)) ∧
    ComputeNextStakeModifier 10 none 100 = none ∧
    ComputeNextStakeModifier 10 (some (⟨5, 1, 2, 9⟩, [])) 100 =
      some (0, true) :=
  ⟨(compute_modifier_total 10 100 ⟨5, 1, 2, 9⟩ []).1,
   (compute_modifier_total 10 100 ⟨5, 1, 2, 9⟩ []).2.1,
   (compute_modifier_total 10 100 ⟨5, 1, 2, 9⟩ []).2.2 (by decide) (by decide)⟩

/-- C3: when a new modifier is generated, the selection interval consists of
the chain positions with timestamps within MODIFIER_INTERVAL_RATIO times the
modifier interval preceding the generation time, partitioned into
MODIFIER_INTERVAL_RATIO equal-length sub-buckets (each timestamp of the
window lies in exactly one sub-bucket), and the new modifier concatenates the
per-round entropy bits of the winning candidate of each sub-bucket with the
most recent round in the lowest bit position. -/
theorem modifier_generation_structure (nModifierInterval nGenTime : Nat)
    (prev : BlockIndexData) (anc : List BlockIndexData)
    (hgen : prev.nTime / nModifierInterval ≠ nGenTime / nModifierInterval) :
    (∀ t, (∃ r, r < MODIFIER_INTERVAL_RATIO ∧
        inSubBucket nModifierInterval nGenTime r t = true) ↔
      (nGenTime ≤ t + MODIFIER_INTERVAL_RATIO * nModifierInterval ∧
        t < nGenTime)) ∧
    (∀ t r s, r < MODIFIER_INTERVAL_RATIO → s < MODIFIER_INTERVAL_RATIO →
      inSubBucket nModifierInterval nGenTime r t = true →
      inSubBucket nModifierInterval nGenTime s t = true → r = s) ∧
    (ComputeNextStakeModifier nModifierInterval (some (prev, anc)) nGenTime =
      some (entBitOfWinner
          (selWinner0 nModifierInterval nGenTime (prev :: anc)) * 2 ^ 2
        + entBitOfWinner
          (selWinner1 nModifierInterval nGenTime (prev :: anc)) * 2 ^ 1
        + entBitOfWinner
          (selWinner2 nModifierInterval nGenTime (prev :: anc)) * 2 ^ 0,
        true)) := by
  have hR : MODIFIER_INTERVAL_RATIO = 3 := rfl
  refine ⟨?_, ?_, ?_⟩
  · intro t
    rw [hR]
    constructor
    · rintro ⟨r, hr, hb⟩
      interval_cases r <;>
        simp only [inSubBucket, hR, Bool.and_eq_true, decide_eq_true_eq]
          at hb <;>
        omega
    · rintro ⟨h1, h2⟩
      by_cases hA : nGenTime ≤ t + nModifierInterval
      · refine ⟨2, by omega, ?_⟩
        simp only [inSubBucket, hR, Bool.and_eq_true, decide_eq_true_eq]
        omega
      · by_cases hB : nGenTime ≤ t + 2 * nModifierInterval
        · refine ⟨1, by omega, ?_⟩
          simp only [inSubBucket, hR, Bool.and_eq_true, decide_eq_true_eq]
          omega
        · refine ⟨0, by omega, ?_⟩
          simp only [inSubBucket, hR, Bool.and_eq_true, decide_eq_true_eq]
          omega
  · intro t r s hr hs h1 h2
    rw [hR] at hr hs
    simp only [inSubBucket, hR, Bool.and_eq_true, decide_eq_true_eq] at h1 h2
    interval_cases r <;> interval_cases s <;> omega
  · rw [ComputeNextStakeModifier_some_eq, if_neg hgen, modifierRounds_eq_fold]
    have h3 : List.range MODIFIER_INTERVAL_RATIO = [0, 1, 2] := rfl
    rw [h3]
    simp only [List.foldl_cons, List.foldl_nil, roundBody_spec]
    norm_num [selWinner0, selWinner1, selWinner2, selSeed1, selSeed2,
      MODIFIER_INTERVAL_RATIO]

/-- Witness for C3 on a concrete four-position chain: the sub-bucket winners
have entropy bits 0, 1, 1 (earliest to most recent), so the generated
modifier is 0 * 4 + 1 * 2 + 1 * 1 = 3 with the most recent round in the
lowest bit. -/
theorem modifier_generation_structure_witness :
    ComputeNextStakeModifier 10
      (some (⟨95, 3, 7, 9⟩, [⟨85, 1, 2, 0⟩, ⟨75, 0, 4, 0⟩, ⟨5, 1, 1, 1⟩])) 100
      = some (3, true) :=
  ((modifier_generation_structure 10 100 ⟨95, 3, 7, 9⟩
      [⟨85, 1, 2, 0⟩, ⟨75, 0, 4, 0⟩, ⟨5, 1, 1, 1⟩] (by decide)).2.2).trans
    (by decide)

end Theorems

end MaryJane
